import Mathlib

/-!
Verification development for the accent-trainer pronunciation-practice
client (a single React component plus a static data module).  The
definitions below are a shallow embedding of the data model and the
handlers of that component: pure data is copied verbatim, the React
state is a Session record, each handler is a function on Session, and
the nondeterminism of Math.random is threaded explicitly as a stream of
rational draws.  Object URLs created for the recorded audio are tracked
by a ghost ledger (fresh-handle counter plus a multiset of revoked
handles) so that resource-lifecycle properties can be stated.
-/

namespace AccentTrainer

/-- Per-position comparison entry, source type PhonemeResult:
expected phoneme, recognizer output at that position (absent when the
recognizer emitted fewer phonemes), and a correctness flag. -/
structure PhonemeResult where
  expected : String
  actual : Option String
  correct : Bool
deriving DecidableEq, Repr

/-- Lifecycle state of the recording session, source type RecordingState. -/
inductive RecordingState where
  | idle
  | recording
  | processing
  | results
deriving DecidableEq, Repr

/-- Backend model selector, source type ModelType. -/
inductive ModelType where
  | allosaurus
  | wav2vec2
deriving DecidableEq, Repr

/-- One sentence of the reference data store (data/words.ts). -/
structure SentenceEntry where
  sentence : String
  phonemes : List String
  ipa : String
deriving DecidableEq, Repr

/-- The sentence list from data/words.ts, copied verbatim. -/
def sentenceList : List SentenceEntry :=
  [ { sentence := "The weather is nice.",
      phonemes := ["ð", "ə", "w", "ɛ", "ð", "ə", "ɪ", "z", "n", "a", "j", "s"],
      ipa := "/ðə ˈwɛðər ɪz naɪs/" },
    { sentence := "I think so.",
      phonemes := ["a", "j", "θ", "ɪ", "ŋ", "k", "s", "o", "w"],
      ipa := "/aɪ θɪŋk soʊ/" },
    { sentence := "This is my brother.",
      phonemes := ["ð", "ɪ", "s", "ɪ", "z", "m", "a", "j", "b", "ɹ", "ʌ", "ð", "ə"],
      ipa := "/ðɪs ɪz maɪ ˈbrʌðər/" },
    { sentence := "Where is the water?",
      phonemes := ["w", "ɛ", "ɹ", "ɪ", "z", "ð", "ə", "w", "ɔ", "t", "ə"],
      ipa := "/wɛr ɪz ðə ˈwɔtər/" },
    { sentence := "Three things matter.",
      phonemes := ["θ", "ɹ", "i", "θ", "ɪ", "ŋ", "z", "m", "æ", "t", "ə"],
      ipa := "/θri θɪŋz ˈmætər/" },
    { sentence := "Thank you very much.",
      phonemes := ["θ", "æ", "ŋ", "k", "j", "u", "v", "ɛ", "ɹ", "i", "m", "ʌ", "tʃ"],
      ipa := "/θæŋk ju ˈvɛri mʌtʃ/" },
    { sentence := "What do you think?",
      phonemes := ["w", "ʌ", "t", "d", "u", "j", "u", "θ", "ɪ", "ŋ", "k"],
      ipa := "/wʌt du ju θɪŋk/" },
    { sentence := "Father and mother.",
      phonemes := ["f", "ɑ", "ð", "ə", "æ", "n", "d", "m", "ʌ", "ð", "ə"],
      ipa := "/ˈfɑðər ænd ˈmʌðər/" },
    { sentence := "Right or wrong?",
      phonemes := ["ɹ", "a", "j", "t", "ɔ", "ɹ", "ɹ", "ɔ", "ŋ"],
      ipa := "/raɪt ɔr rɔŋ/" },
    { sentence := "Hello world.",
      phonemes := ["h", "ə", "l", "o", "w", "w", "ɜ", "ɹ", "l", "d"],
      ipa := "/həˈloʊ wɜrld/" },
    { sentence := "Good morning.",
      phonemes := ["ɡ", "ʊ", "d", "m", "ɔ", "ɹ", "n", "ɪ", "ŋ"],
      ipa := "/ɡʊd ˈmɔrnɪŋ/" },
    { sentence := "How are you?",
      phonemes := ["h", "a", "w", "ɑ", "ɹ", "j", "u"],
      ipa := "/haʊ ɑr ju/" } ]

/-- Pedagogical metadata attached to a phoneme symbol (data/words.ts). -/
structure PhonemeInfoEntry where
  description : String
  exampleText : String
  tip : String
deriving DecidableEq, Repr

/-- The phonemeInfo lookup from data/words.ts, copied verbatim; the
source is a JS object, embedded as a function returning none for
symbols without metadata.  Apostrophes inside the tip texts are written
with the escape \x27. -/
def phonemeInfo (symbol : String) : Option PhonemeInfoEntry :=
  if symbol = "θ" then some
    { description := "Voiceless TH", exampleText := "think, three, bath",
      tip := "Put tongue between teeth, blow air without vibrating throat" }
  else if symbol = "ð" then some
    { description := "Voiced TH", exampleText := "the, this, brother",
      tip := "Put tongue between teeth, vibrate your throat" }
  else if symbol = "ɹ" then some
    { description := "American R", exampleText := "red, right, car",
      tip := "Curl tongue back, don\x27t touch roof of mouth" }
  else if symbol = "ɚ" then some
    { description := "R-colored schwa", exampleText := "water, butter, never",
      tip := "Relaxed \x27uh\x27 + R sound combined" }
  else if symbol = "æ" then some
    { description := "Short A", exampleText := "cat, man, hand",
      tip := "Open mouth wide, tongue low and front" }
  else if symbol = "ʌ" then some
    { description := "Short U", exampleText := "cup, love, mother",
      tip := "Short, relaxed \x27uh\x27 in the middle of mouth" }
  else if symbol = "ɑ" then some
    { description := "Open A", exampleText := "father, calm, spa",
      tip := "Open mouth wide, tongue low and back" }
  else if symbol = "ɔ" then some
    { description := "Open O", exampleText := "thought, caught, all",
      tip := "Round lips slightly, back of tongue raised" }
  else if symbol = "ɛ" then some
    { description := "Short E", exampleText := "bed, head, said",
      tip := "Mouth slightly open, tongue mid-front" }
  else if symbol = "ɪ" then some
    { description := "Short I", exampleText := "bit, will, this",
      tip := "Short \x27ih\x27 sound, relaxed tongue" }
  else if symbol = "i" then some
    { description := "Long E", exampleText := "see, we, easy",
      tip := "Smile position, tongue high and front" }
  else if symbol = "u" then some
    { description := "Long U", exampleText := "too, blue, through",
      tip := "Round lips tightly, tongue high and back" }
  else if symbol = "ə" then some
    { description := "Schwa", exampleText := "about, the, banana",
      tip := "Most relaxed vowel, mouth barely open" }
  else if symbol = "ŋ" then some
    { description := "NG sound", exampleText := "sing, thing, going",
      tip := "Back of tongue touches soft palate" }
  else if symbol = "ʃ" then some
    { description := "SH sound", exampleText := "she, fish, action",
      tip := "Lips rounded, air through teeth gap" }
  else if symbol = "tʃ" then some
    { description := "CH sound", exampleText := "church, watch, much",
      tip := "Start with T, release into SH" }
  else if symbol = "w" then some
    { description := "W sound", exampleText := "we, water, with",
      tip := "Round lips tight, then open to vowel" }
  else if symbol = "v" then some
    { description := "V sound", exampleText := "very, love, never",
      tip := "Upper teeth on lower lip, vibrate throat" }
  else if symbol = "a" then some
    { description := "Open A / diphthong start", exampleText := "my, high, time",
      tip := "Start of \x27ai\x27 diphthong, open mouth" }
  else if symbol = "j" then some
    { description := "Y glide", exampleText := "yes, you, beyond",
      tip := "Like \x27ee\x27 but quickly glides to next sound" }
  else if symbol = "o" then some
    { description := "O sound", exampleText := "go, so, no",
      tip := "Round lips, back vowel" }
  else if symbol = "ɜ" then some
    { description := "UR vowel", exampleText := "bird, world, hurt",
      tip := "Like \x27er\x27 without the final R sound" }
  else if symbol = "ʊ" then some
    { description := "Short OO", exampleText := "book, good, put",
      tip := "Short, relaxed \x27oo\x27 sound" }
  else if symbol = "ɡ" then some
    { description := "G sound", exampleText := "go, big, dog",
      tip := "Back of tongue touches soft palate, voiced" }
  else none

/-- The fixed substitution table inside getRandomSubstitution (App.tsx
lines 104 to 112), embedded as a partial lookup. -/
def substitutions (phoneme : String) : Option (List String) :=
  if phoneme = "θ" then some ["t", "s", "f"]
  else if phoneme = "ð" then some ["d", "z", "v"]
  else if phoneme = "ɹ" then some ["ɾ", "l", "w"]
  else if phoneme = "æ" then some ["ɛ", "a", "e"]
  else if phoneme = "ʌ" then some ["a", "ə", "o"]
  else if phoneme = "v" then some ["w", "b", "f"]
  else if phoneme = "w" then some ["v", "u"]
  else none

/-- Source getRandomSubstitution: picks subs[Math.floor(Math.random() *
subs.length)] when the phoneme is in the table, else returns the
phoneme unchanged.  The single Math.random draw is the parameter r;
the platform guarantees 0 <= r < 1. -/
def getRandomSubstitution (r : ℚ) (phoneme : String) : String :=
  match substitutions phoneme with
  | some subs => subs.getD (⌊r * subs.length⌋).toNat phoneme
  | none => phoneme

/-- JS truthiness of a possibly-absent string, as used by the source
expressions r.actual || r.expected and data.raw || ... : an absent or
empty string selects the right operand. -/
def jsOrStr (a : Option String) (b : String) : String :=
  match a with
  | some v => if v = "" then b else v
  | none => b

/-- One simulated entry per expected phoneme, threading the stream of
Math.random draws by index k (source simulateResults, lines 93 to 97:
the ternary consumes one draw, a substitution consumes one more, the
correct flag consumes one).  Returns the entries and the next unused
stream index. -/
def simulateList (rng : ℕ → ℚ) : ℕ → List String → List PhonemeResult × ℕ
  | k, [] => ([], k)
  | k, p :: ps =>
    let r1 := rng k
    let ak : String × ℕ :=
      if (1 : ℚ)/4 < r1 then (p, k + 1)
      else (getRandomSubstitution (rng (k + 1)) p, k + 2)
    let r2 := rng ak.2
    let rest := simulateList rng (ak.2 + 1) ps
    ({ expected := p, actual := some ak.1, correct := (1 : ℚ)/4 < r2 } :: rest.1,
     rest.2)

/-- Session state of the component: the useState hooks of App.tsx plus
a ghost ledger for object URLs of the recorded audio (nextHandle is the
next fresh handle URL.createObjectURL would return, released collects
the handles passed to URL.revokeObjectURL). -/
structure Session where
  currentIndex : ℕ
  recordingState : RecordingState
  results : Option (List PhonemeResult)
  rawPhonemes : String
  hoveredPhoneme : Option String
  playingPhoneme : Option String
  model : ModelType
  recordedAudioUrl : Option ℕ
  nextHandle : ℕ
  released : List ℕ

/-- The initial hook values of App.tsx (lines 15 to 22). -/
def initSession : Session :=
  { currentIndex := 0
    recordingState := RecordingState.idle
    results := none
    rawPhonemes := ""
    hoveredPhoneme := none
    playingPhoneme := none
    model := ModelType.allosaurus
    recordedAudioUrl := none
    nextHandle := 0
    released := [] }

/-- Source line 29: currentSentence = sentenceList[currentIndex].  The
index is always within bounds for reachable sessions (see the
reachability invariant); the default entry is never selected. -/
def currentSentence (s : Session) : SentenceEntry :=
  sentenceList.getD s.currentIndex { sentence := "", phonemes := [], ipa := "" }

/-- Source simulateResults (lines 92 to 101): fabricate one entry per
expected phoneme, store them, store the joined actual values as the raw
output, and move to the results state. -/
def simulateResults (rng : ℕ → ℚ) (s : Session) : Session :=
  let simulated := (simulateList rng 0 (currentSentence s).phonemes).1
  { s with
      results := some simulated
      rawPhonemes := String.intercalate " "
        (simulated.map fun r => jsOrStr r.actual r.expected)
      recordingState := RecordingState.results }

/-- Outcome of the POST to /api/analyze as observed by
processRecording: a parsed success body (comparison present, and raw or
phonemes per the documented interface), a non-success HTTP status
(the response.ok check throws), or a transport or parse error. -/
inductive AnalyzeResponse where
  | ok (comparison : List PhonemeResult) (raw : Option String) (phonemes : List String)
  | httpError
  | transportError

/-- True exactly on the failure outcomes of the analyze call. -/
def AnalyzeResponse.isFailure : AnalyzeResponse → Bool
  | .ok _ _ _ => false
  | .httpError => true
  | .transportError => true

/-- Modelled from the spec: server.py, the analyze endpoint, is part of
the repository but missing from src/.  Per the spec, a success response
carries a Comparison, an ordered sequence of per-position entries that
is always the same length as the active sentence's expectedPhonemes.
This predicate states that contract for a parsed response. -/
def analyzeRespGood (expected : List String) : AnalyzeResponse → Prop
  | .ok comparison _ _ => comparison.length = expected.length
  | .httpError => True
  | .transportError => True

/-- Source processRecording (lines 66 to 90): on a parsed success
store the returned comparison, the raw text (or the joined phonemes
when raw is absent or empty), and move to results; any failure falls
back to simulateResults. -/
def processRecording (rng : ℕ → ℚ) (resp : AnalyzeResponse) (s : Session) : Session :=
  match resp with
  | .ok comparison raw phonemes =>
    { s with
        results := some comparison
        rawPhonemes := jsOrStr raw (String.intercalate " " phonemes)
        recordingState := RecordingState.results }
  | .httpError => simulateResults rng s
  | .transportError => simulateResults rng s

/-- Source nextSentence (lines 173 to 181): revoke the recorded-audio
object URL when present, clear the handle, advance the index
cyclically, reset to idle and clear results, raw output and hover. -/
def nextSentence (s : Session) : Session :=
  { s with
      released :=
        match s.recordedAudioUrl with
        | some h => h :: s.released
        | none => s.released
      recordedAudioUrl := none
      currentIndex := (s.currentIndex + 1) % sentenceList.length
      recordingState := RecordingState.idle
      results := none
      rawPhonemes := ""
      hoveredPhoneme := none }

/-- Source resetSentence (lines 183 to 190): like nextSentence but the
sentence index stays put. -/
def resetSentence (s : Session) : Session :=
  { s with
      released :=
        match s.recordedAudioUrl with
        | some h => h :: s.released
        | none => s.released
      recordedAudioUrl := none
      recordingState := RecordingState.idle
      results := none
      rawPhonemes := ""
      hoveredPhoneme := none }

/-- Source score (lines 192 to 194): Math.round of the correct ratio
times 100 when results are present, 0 otherwise.  Math.round on a
non-negative finite value is floor of the value plus one half.  (For an
empty comparison JS would produce NaN from 0/0 while rational division
yields 0; comparisons are never empty, and the score claims are stated
for non-empty comparisons only.) -/
def jsRound (q : ℚ) : ℤ := ⌊q + 1/2⌋

/-- The score displayed for a session's stored results. -/
def score (results : Option (List PhonemeResult)) : ℤ :=
  match results with
  | some l =>
    jsRound ((((l.filter fun r => r.correct).length : ℚ) / (l.length : ℚ)) * 100)
  | none => 0

/-- User-visible events of the component, with the wiring of the JSX:
the record button is hidden in results and disabled in processing, so
recording starts only from idle and stops only from recording; the try
again and next buttons render only in results; the analysis completion
(onstop plus processRecording) resolves only from processing.  Model
switching, hovering and the playing marker are available anywhere. -/
inductive Event where
  | recordGranted
  | recordDenied
  | stopTap
  | analysisDone (rng : ℕ → ℚ) (resp : AnalyzeResponse)
  | tryAgain
  | next
  | selectModel (m : ModelType)
  | hover (p : Option String)
  | playMarker (p : Option String)

/-- One step of the session state machine; none when the event's
control is not reachable in the given state.  analysisDone first runs
the onstop handler (fresh object URL stored in recordedAudioUrl), then
processRecording. -/
def step (s : Session) (e : Event) : Option Session :=
  match e with
  | .recordGranted =>
    if s.recordingState = RecordingState.idle then
      some { s with recordingState := RecordingState.recording }
    else none
  | .recordDenied =>
    if s.recordingState = RecordingState.idle then some s else none
  | .stopTap =>
    if s.recordingState = RecordingState.recording then
      some { s with recordingState := RecordingState.processing }
    else none
  | .analysisDone rng resp =>
    if s.recordingState = RecordingState.processing then
      some (processRecording rng resp
        { s with
            recordedAudioUrl := some s.nextHandle
            nextHandle := s.nextHandle + 1 })
    else none
  | .tryAgain =>
    if s.recordingState = RecordingState.results then some (resetSentence s)
    else none
  | .next =>
    if s.recordingState = RecordingState.results then some (nextSentence s)
    else none
  | .selectModel m => some { s with model := m }
  | .hover p => some { s with hoveredPhoneme := p }
  | .playMarker p => some { s with playingPhoneme := p }

/-- Sessions reachable from the initial hook state through the wired
events. -/
inductive Reachable : Session → Prop where
  | init : Reachable initSession
  | step {s : Session} {e : Event} {t : Session} :
      Reachable s → step s e = some t → Reachable t

/-- State of the phoneme playback channel: audioRef is the last Audio
element created for a backend response (source ref audioRef),
playingAudios the Audio elements currently playing, spokenUtterances
the texts handed to speechSynthesis.speak and not yet finished, and
playingPhoneme the currently-playing marker. -/
structure PlaybackState where
  nextAudioId : ℕ
  audioRef : Option ℕ
  playingAudios : List ℕ
  spokenUtterances : List String
  playingPhoneme : Option String
deriving DecidableEq, Repr

/-- Playback channel before any playback request. -/
def initPlayback : PlaybackState :=
  { nextAudioId := 0
    audioRef := none
    playingAudios := []
    spokenUtterances := []
    playingPhoneme := none }

/-- JS split(sep)[0] at the character level: the characters before the
first occurrence of the separator (the whole string when absent). -/
def jsSplitFirst (sep : Char) : List Char → List Char
  | [] => []
  | c :: cs => if c = sep then [] else c :: jsSplitFirst sep cs

/-- JS String.prototype.trim at the character level: strip leading and
trailing whitespace. -/
def jsTrimChars (l : List Char) : List Char :=
  ((l.dropWhile Char.isWhitespace).reverse.dropWhile Char.isWhitespace).reverse

/-- Source playPhoneme, fallback text (line 152): the first
comma-separated token of the example text, trimmed, embedded at the
character level so that it evaluates. -/
def firstExampleWord (info : PhonemeInfoEntry) : String :=
  String.mk (jsTrimChars (jsSplitFirst ',' info.exampleText.data))

/-- Source playPhoneme (lines 117 to 160) with the outcome of the POST
to /api/speak as the parameter speakOk.  Sets the playing marker; on a
success response pauses the Audio element held in audioRef (and only
that one) and starts a fresh Audio element; on failure falls back to
speechSynthesis.speak of the example word when metadata exists, and
otherwise clears the marker.  The fallback path touches neither
audioRef nor the playing Audio elements. -/
def playPhoneme (speakOk : Bool) (phoneme : String) (pb : PlaybackState) : PlaybackState :=
  let pb1 := { pb with playingPhoneme := some phoneme }
  if speakOk then
    let afterPause :=
      match pb1.audioRef with
      | some h => pb1.playingAudios.filter fun x => x ≠ h
      | none => pb1.playingAudios
    { pb1 with
        audioRef := some pb1.nextAudioId
        playingAudios := pb1.nextAudioId :: afterPause
        nextAudioId := pb1.nextAudioId + 1 }
  else
    match phonemeInfo phoneme with
    | some info =>
      { pb1 with spokenUtterances := pb1.spokenUtterances ++ [firstExampleWord info] }
    | none => { pb1 with playingPhoneme := none }

/-- Number of simultaneously audible playbacks on the phoneme channel:
playing Audio elements plus an active speech-synthesis utterance. -/
def activePlaybackCount (pb : PlaybackState) : ℕ :=
  pb.playingAudios.length + (if pb.spokenUtterances = [] then 0 else 1)

/-- Every playing Audio element of the phoneme channel is the one held
in audioRef (so at most one backend audio is in flight). -/
def backendAudioInv (pb : PlaybackState) : Prop :=
  ∀ h ∈ pb.playingAudios, pb.audioRef = some h


/-- Shape of a fabricated comparison entry for expected phoneme p: the
expected field is p and the actual value is p itself or one of its
tabled substitutions. -/
def simulatedEntryOk (r : PhonemeResult) (p : String) : Prop :=
  r.expected = p ∧
    ∃ a, r.actual = some a ∧ (a = p ∨ a ∈ (substitutions p).getD [])
/-- Inductive invariant of the session state machine: the sentence
index is in bounds; results are stored exactly in the results state;
outside the results state no recorded-audio handle is held; a held
handle is allocated and not yet revoked; no handle is revoked twice;
every allocated handle is either revoked or currently held; handles
not yet allocated are never revoked. -/
def Inv (s : Session) : Prop :=
  s.currentIndex < sentenceList.length ∧
  (s.results.isSome ↔ s.recordingState = RecordingState.results) ∧
  (s.recordingState ≠ RecordingState.results → s.recordedAudioUrl = none) ∧
  (∀ h, s.recordedAudioUrl = some h → h < s.nextHandle ∧ s.released.count h = 0) ∧
  (∀ h, s.released.count h ≤ 1) ∧
  (∀ h, h < s.nextHandle → s.released.count h = 1 ∨ s.recordedAudioUrl = some h) ∧
  (∀ h, s.nextHandle ≤ h → s.released.count h = 0)


theorem sentenceList_length : sentenceList.length = 12 := rfl

theorem sentence_phonemes_wf :
    ∀ e ∈ sentenceList, e.phonemes ≠ [] ∧ ∀ p ∈ e.phonemes, p ≠ "" := by decide

theorem substitutions_wf :
    ∀ p subs, substitutions p = some subs → subs ≠ [] ∧ ∀ x ∈ subs, x ≠ "" := by
  intro p subs h
  unfold substitutions at h
  split_ifs at h <;> simp only [Option.some.injEq] at h <;> subst h <;> decide

theorem getRandomSubstitution_mem (r : ℚ) (p : String) (subs : List String)
    (h0 : 0 ≤ r) (h1 : r < 1) (hs : substitutions p = some subs) :
    getRandomSubstitution r p ∈ subs := by
  have hne : subs ≠ [] := (substitutions_wf p subs hs).1
  have hlen : 0 < subs.length := List.length_pos.mpr hne
  have hflt : ⌊r * (subs.length : ℚ)⌋ < (subs.length : ℤ) := by
    apply Int.floor_lt.mpr
    push_cast
    have := mul_lt_mul_of_pos_right h1 (by exact_mod_cast hlen : (0 : ℚ) < subs.length)
    simpa using this
  have hfnn : (0 : ℤ) ≤ ⌊r * (subs.length : ℚ)⌋ :=
    Int.floor_nonneg.mpr (by positivity)
  have hidx : (⌊r * (subs.length : ℚ)⌋).toNat < subs.length := by omega
  unfold getRandomSubstitution
  rw [hs]
  simp only
  rw [List.getD_eq_getElem?_getD, List.getElem?_eq_getElem hidx]
  exact List.getElem_mem hidx

theorem getRandomSubstitution_cases (r : ℚ) (p : String) :
    getRandomSubstitution r p = p ∨
      getRandomSubstitution r p ∈ (substitutions p).getD [] := by
  unfold getRandomSubstitution
  cases hs : substitutions p with
  | none => exact Or.inl rfl
  | some subs =>
    simp only [Option.getD_some]
    by_cases hidx : (⌊r * (subs.length : ℚ)⌋).toNat < subs.length
    · right
      rw [List.getD_eq_getElem?_getD, List.getElem?_eq_getElem hidx]
      exact List.getElem_mem hidx
    · left
      rw [List.getD_eq_getElem?_getD, List.getElem?_eq_none (by omega)]
      rfl

theorem jsOrStr_ne_empty (a : Option String) (b : String) (hb : b ≠ "") :
    jsOrStr a b ≠ "" := by
  unfold jsOrStr
  cases a with
  | none => exact hb
  | some v =>
    by_cases hv : v = "" <;> simp [hv, hb]

theorem intercalate_go_ne_empty :
    ∀ (as : List String) (acc : String), acc ≠ "" →
      String.intercalate.go acc " " as ≠ "" := by
  intro as
  induction as with
  | nil => intro acc hacc; exact hacc
  | cons b bs ih =>
    intro acc hacc
    show String.intercalate.go (acc ++ " " ++ b) " " bs ≠ ""
    apply ih
    intro hcontra
    have hlen := congrArg String.length hcontra
    rw [String.length_append, String.length_append] at hlen
    have h1 : (" ").length = 1 := rfl
    rw [h1] at hlen
    have h0 : ("" : String).length = 0 := rfl
    rw [h0] at hlen
    omega

theorem intercalate_ne_empty (a : String) (as : List String) (ha : a ≠ "") :
    String.intercalate " " (a :: as) ≠ "" := by
  show String.intercalate.go a " " as ≠ ""
  exact intercalate_go_ne_empty as a ha

theorem simulateList_forall2 (rng : ℕ → ℚ) :
    ∀ (ps : List String) (k : ℕ),
      List.Forall₂ simulatedEntryOk (simulateList rng k ps).1 ps := by
  intro ps
  induction ps with
  | nil => intro k; exact List.Forall₂.nil
  | cons p pt ih =>
    intro k
    rw [simulateList]
    refine List.Forall₂.cons ⟨rfl, ⟨_, rfl, ?_⟩⟩ (ih _)
    dsimp only
    split_ifs with hr
    · exact Or.inl rfl
    · exact getRandomSubstitution_cases _ p

theorem simulateList_length (rng : ℕ → ℚ) (ps : List String) (k : ℕ) :
    (simulateList rng k ps).1.length = ps.length :=
  (simulateList_forall2 rng ps k).length_eq

theorem processRecording_effects (rng : ℕ → ℚ) (resp : AnalyzeResponse) (s : Session) :
    (processRecording rng resp s).currentIndex = s.currentIndex ∧
    (processRecording rng resp s).recordingState = RecordingState.results ∧
    (processRecording rng resp s).results.isSome = true ∧
    (processRecording rng resp s).recordedAudioUrl = s.recordedAudioUrl ∧
    (processRecording rng resp s).nextHandle = s.nextHandle ∧
    (processRecording rng resp s).released = s.released := by
  cases resp <;> simp [processRecording, simulateResults]

/-- Ledger facts after revoking the held handle (as resetSentence and
nextSentence do): the revoked list stays duplicate-free in counts,
every allocated handle is now revoked exactly once, unallocated
handles stay untouched, and the held handle's count rises by one. -/
theorem released_after_revoke (url : Option ℕ) (next : ℕ) (rel : List ℕ)
    (h4 : ∀ h, url = some h → h < next ∧ rel.count h = 0)
    (h6 : ∀ h, h < next → rel.count h = 1 ∨ url = some h)
    (h5 : ∀ h, rel.count h ≤ 1)
    (h7 : ∀ h, next ≤ h → rel.count h = 0) :
    (∀ h, (match url with | some h0 => h0 :: rel | none => rel).count h ≤ 1) ∧
    (∀ h, h < next → (match url with | some h0 => h0 :: rel | none => rel).count h = 1) ∧
    (∀ h, next ≤ h → (match url with | some h0 => h0 :: rel | none => rel).count h = 0) ∧
    (∀ h, url = some h → (match url with | some h0 => h0 :: rel | none => rel).count h = rel.count h + 1) := by
  cases url with
  | none =>
    refine ⟨h5, ?_, h7, ?_⟩
    · intro h hlt
      rcases h6 h hlt with hc | hc
      · exact hc
      · cases hc
    · intro h hc
      cases hc
  | some h0 =>
    obtain ⟨h0lt, h0cnt⟩ := h4 h0 rfl
    refine ⟨?_, ?_, ?_, ?_⟩
    · intro h
      by_cases heq : h = h0
      · subst heq
        rw [List.count_cons_self]
        omega
      · rw [List.count_cons_of_ne heq]
        exact h5 h
    · intro h hlt
      by_cases heq : h = h0
      · subst heq
        rw [List.count_cons_self]
        omega
      · rw [List.count_cons_of_ne heq]
        rcases h6 h hlt with hc | hc
        · exact hc
        · injection hc with hc
          exact absurd hc.symm heq
    · intro h hle
      have heq : h ≠ h0 := by omega
      rw [List.count_cons_of_ne heq]
      exact h7 h hle
    · intro h hc
      injection hc with hc
      subst hc
      rw [List.count_cons_self]

theorem inv_init : Inv initSession := by
  refine ⟨by decide, ?_, ?_, ?_, ?_, ?_, ?_⟩ <;> simp [initSession]

theorem inv_preserved {s t : Session} {e : Event}
    (hs : Inv s) (hstep : step s e = some t) : Inv t := by
  obtain ⟨h1, h2, h3, h4, h5, h6, h7⟩ := hs
  cases e with
  | recordGranted =>
    by_cases hg : s.recordingState = RecordingState.idle
    case neg =>
      simp only [step, hg, if_neg, if_false] at hstep
      cases hstep
    simp only [step, hg, if_pos] at hstep
    injection hstep with hstep
    subst hstep
    refine ⟨h1, ?_, ?_, h4, h5, h6, h7⟩
    · simpa [hg] using h2
    · intro _
      exact h3 (by rw [hg]; intro hcontra; cases hcontra)
  | recordDenied =>
    by_cases hg : s.recordingState = RecordingState.idle
    case neg =>
      simp only [step, hg, if_neg, if_false] at hstep
      cases hstep
    simp only [step, hg, if_pos] at hstep
    injection hstep with hstep
    subst hstep
    exact ⟨h1, h2, h3, h4, h5, h6, h7⟩
  | stopTap =>
    by_cases hg : s.recordingState = RecordingState.recording
    case neg =>
      simp only [step, hg, if_neg, if_false] at hstep
      cases hstep
    simp only [step, hg, if_pos] at hstep
    injection hstep with hstep
    subst hstep
    refine ⟨h1, ?_, ?_, h4, h5, h6, h7⟩
    · simpa [hg] using h2
    · intro _
      exact h3 (by rw [hg]; intro hcontra; cases hcontra)
  | analysisDone rng resp =>
    by_cases hg : s.recordingState = RecordingState.processing
    case neg =>
      simp only [step, hg, if_neg, if_false] at hstep
      cases hstep
    simp only [step, hg, if_pos] at hstep
    injection hstep with hstep
    subst hstep
    have hurl : s.recordedAudioUrl = none :=
      h3 (by rw [hg]; intro hcontra; cases hcontra)
    obtain ⟨e1, e2, e3, e4, e5, e6⟩ := processRecording_effects rng resp
      { s with recordingState := RecordingState.processing,
               recordedAudioUrl := some s.nextHandle, nextHandle := s.nextHandle + 1 }
    refine ⟨by rw [e1]; exact h1, by rw [e3, e2]; simp, by rw [e2]; intro hcontra; exact absurd rfl hcontra,
      ?_, ?_, ?_, ?_⟩
    · intro h hh
      rw [e4] at hh
      have hh2 : some s.nextHandle = some h := hh
      injection hh2 with hh2
      subst hh2
      rw [e6, e5]
      have hcnt : s.released.count s.nextHandle = 0 := h7 _ (le_refl _)
      exact ⟨Nat.lt_succ_self _, hcnt⟩
    · intro h
      rw [e6]
      exact h5 h
    · intro h hlt
      rw [e5] at hlt
      rw [e6, e4]
      have hlt2 : h < s.nextHandle + 1 := hlt
      by_cases hcase : h < s.nextHandle
      · rcases h6 h hcase with hc | hc
        · exact Or.inl hc
        · rw [hurl] at hc
          cases hc
      · have heq : h = s.nextHandle := by omega
        subst heq
        exact Or.inr rfl
    · intro h hle
      rw [e5] at hle
      rw [e6]
      have hle2 : s.nextHandle + 1 ≤ h := hle
      exact h7 h (by omega)
  | tryAgain =>
    by_cases hg : s.recordingState = RecordingState.results
    case neg =>
      simp only [step, hg, if_neg, if_false] at hstep
      cases hstep
    simp only [step, hg, if_pos] at hstep
    injection hstep with hstep
    subst hstep
    obtain ⟨g5, g6, g7, _⟩ := released_after_revoke s.recordedAudioUrl s.nextHandle s.released h4 h6 h5 h7
    exact ⟨h1, by simp [resetSentence], by simp [resetSentence],
      by intro h hh; simp [resetSentence] at hh,
      fun h => g5 h, fun h hlt => Or.inl (g6 h hlt), fun h hle => g7 h hle⟩
  | next =>
    by_cases hg : s.recordingState = RecordingState.results
    case neg =>
      simp only [step, hg, if_neg, if_false] at hstep
      cases hstep
    simp only [step, hg, if_pos] at hstep
    injection hstep with hstep
    subst hstep
    obtain ⟨g5, g6, g7, _⟩ := released_after_revoke s.recordedAudioUrl s.nextHandle s.released h4 h6 h5 h7
    have hmod : ((s.currentIndex + 1) % sentenceList.length) < sentenceList.length :=
      Nat.mod_lt _ (by decide)
    exact ⟨hmod, by simp [nextSentence], by simp [nextSentence],
      by intro h hh; simp [nextSentence] at hh,
      fun h => g5 h, fun h hlt => Or.inl (g6 h hlt), fun h hle => g7 h hle⟩
  | selectModel m =>
    simp only [step] at hstep
    injection hstep with hstep
    subst hstep
    exact ⟨h1, h2, h3, h4, h5, h6, h7⟩
  | hover p =>
    simp only [step] at hstep
    injection hstep with hstep
    subst hstep
    exact ⟨h1, h2, h3, h4, h5, h6, h7⟩
  | playMarker p =>
    simp only [step] at hstep
    injection hstep with hstep
    subst hstep
    exact ⟨h1, h2, h3, h4, h5, h6, h7⟩

theorem inv_reachable {s : Session} (hs : Reachable s) : Inv s := by
  induction hs with
  | init => exact inv_init
  | step _ hstep ih => exact inv_preserved ih hstep



theorem nextSentence_index (s : Session) :
    (nextSentence s).currentIndex = (s.currentIndex + 1) % sentenceList.length := rfl

theorem nextSentence_iterate_index :
    ∀ (n : ℕ) (s : Session), s.currentIndex < sentenceList.length →
      (nextSentence^[n] s).currentIndex = (s.currentIndex + n) % sentenceList.length := by
  intro n
  induction n with
  | zero =>
    intro s hs
    simp [Nat.mod_eq_of_lt hs]
  | succ n ih =>
    intro s hs
    rw [Function.iterate_succ_apply]
    have hlt : (nextSentence s).currentIndex < sentenceList.length :=
      Nat.mod_lt _ (by decide)
    rw [ih (nextSentence s) hlt, nextSentence_index]
    rw [Nat.mod_add_mod]
    ring_nf

/-- C9: advancing maps i to (i + 1) mod count, wraps from the last
index to 0, and count applications return to the start. -/
theorem claim_next_cyclic (s : Session) (hs : s.currentIndex < sentenceList.length) :
    (nextSentence s).currentIndex = (s.currentIndex + 1) % sentenceList.length ∧
    (s.currentIndex = sentenceList.length - 1 → (nextSentence s).currentIndex = 0) ∧
    (nextSentence^[sentenceList.length] s).currentIndex = s.currentIndex := by
  refine ⟨rfl, ?_, ?_⟩
  · intro hlast
    rw [nextSentence_index, hlast]
    decide
  · rw [nextSentence_iterate_index _ s hs]
    rw [Nat.add_mod_right]
    exact Nat.mod_eq_of_lt hs

theorem claim_next_cyclic_witness :
    (nextSentence initSession).currentIndex = (initSession.currentIndex + 1) % sentenceList.length ∧
    (initSession.currentIndex = sentenceList.length - 1 → (nextSentence initSession).currentIndex = 0) ∧
    (nextSentence^[sentenceList.length] initSession).currentIndex = initSession.currentIndex :=
  claim_next_cyclic initSession (by decide)

/-- C10: the try-again reset keeps the sentence index and the selected
model (and the playing marker and handle counter), clears the
comparison, the raw output, the recorded-audio handle and the hover
marker, and returns to idle. -/
theorem claim_reset_frame (s : Session) :
    (resetSentence s).currentIndex = s.currentIndex ∧
    (resetSentence s).model = s.model ∧
    (resetSentence s).results = none ∧
    (resetSentence s).rawPhonemes = "" ∧
    (resetSentence s).recordedAudioUrl = none ∧
    (resetSentence s).hoveredPhoneme = none ∧
    (resetSentence s).recordingState = RecordingState.idle ∧
    (resetSentence s).playingPhoneme = s.playingPhoneme ∧
    (resetSentence s).nextHandle = s.nextHandle := by
  refine ⟨rfl, rfl, rfl, rfl, rfl, rfl, rfl, rfl, rfl⟩

/-- C4: for a non-empty comparison the score is round of 100 times the
correct count over the total; all-correct scores 100 and all-incorrect
scores 0. -/
theorem claim_score (l : List PhonemeResult) (hl : l ≠ []) :
    score (some l) =
      jsRound ((100 * ((l.filter fun r => r.correct).length : ℚ)) / (l.length : ℚ)) ∧
    ((∀ r ∈ l, r.correct) → score (some l) = 100) ∧
    ((∀ r ∈ l, r.correct = false) → score (some l) = 0) := by
  have hlen : (0 : ℚ) < (l.length : ℚ) := by
    exact_mod_cast List.length_pos.mpr hl
  refine ⟨?_, ?_, ?_⟩
  · simp only [score]
    congr 1
    ring
  · intro hall
    have hfilter : l.filter (fun r => r.correct) = l :=
      List.filter_eq_self.mpr (by intro a ha; exact hall a ha)
    simp only [score]
    rw [hfilter]
    rw [div_self (ne_of_gt hlen)]
    norm_num [jsRound]
  · intro hnone
    have hfilter : l.filter (fun r => r.correct) = [] :=
      List.filter_eq_nil_iff.mpr (by intro a ha; simp [hnone a ha])
    simp only [score]
    rw [hfilter]
    norm_num [jsRound]

theorem claim_score_witness :
    score (some [{ expected := "θ", actual := some "θ", correct := true }]) =
      jsRound ((100 * ((([{ expected := "θ", actual := some "θ", correct := true }] :
        List PhonemeResult).filter fun r => r.correct).length : ℚ)) / 1) ∧
    ((∀ r ∈ ([{ expected := "θ", actual := some "θ", correct := true }] :
        List PhonemeResult), r.correct) →
      score (some [{ expected := "θ", actual := some "θ", correct := true }]) = 100) ∧
    ((∀ r ∈ ([{ expected := "θ", actual := some "θ", correct := true }] :
        List PhonemeResult), r.correct = false) →
      score (some [{ expected := "θ", actual := some "θ", correct := true }]) = 0) :=
  claim_score [{ expected := "θ", actual := some "θ", correct := true }] (by simp)


theorem currentSentence_mem (s : Session) (hidx : s.currentIndex < sentenceList.length) :
    currentSentence s ∈ sentenceList := by
  unfold currentSentence
  rw [List.getD_eq_getElem?_getD, List.getElem?_eq_getElem hidx]
  simp only [Option.getD_some]
  exact List.getElem_mem hidx

theorem simulateList_raw_ne_empty (rng : ℕ → ℚ) (ps : List String) (k : ℕ)
    (hne : ps ≠ []) (hwf : ∀ p ∈ ps, p ≠ "") :
    String.intercalate " "
      ((simulateList rng k ps).1.map fun r => jsOrStr r.actual r.expected) ≠ "" := by
  cases ps with
  | nil => exact absurd rfl hne
  | cons p pt =>
    rw [simulateList]
    dsimp only [List.map_cons]
    apply intercalate_ne_empty
    apply jsOrStr_ne_empty
    exact hwf p (List.mem_cons_self p pt)

/-- C1: every failed analyze call falls back to a fabricated
comparison with one entry per expected phoneme built with the
substitution heuristic, a non-empty raw output joined from the
fabricated actual values, and the results state. -/
theorem claim_fallback_analysis (s : Session) (rng : ℕ → ℚ) (resp : AnalyzeResponse)
    (hidx : s.currentIndex < sentenceList.length) (hfail : resp.isFailure = true) :
    ∃ l, (processRecording rng resp s).results = some l ∧
      List.Forall₂ simulatedEntryOk l (currentSentence s).phonemes ∧
      l.length = (currentSentence s).phonemes.length ∧
      (processRecording rng resp s).rawPhonemes =
        String.intercalate " " (l.map fun r => jsOrStr r.actual r.expected) ∧
      (processRecording rng resp s).rawPhonemes ≠ "" ∧
      (processRecording rng resp s).recordingState = RecordingState.results := by
  obtain ⟨hpne, hpwf⟩ := sentence_phonemes_wf _ (currentSentence_mem s hidx)
  have hmain : ∃ l, (simulateResults rng s).results = some l ∧
      List.Forall₂ simulatedEntryOk l (currentSentence s).phonemes ∧
      l.length = (currentSentence s).phonemes.length ∧
      (simulateResults rng s).rawPhonemes =
        String.intercalate " " (l.map fun r => jsOrStr r.actual r.expected) ∧
      (simulateResults rng s).rawPhonemes ≠ "" ∧
      (simulateResults rng s).recordingState = RecordingState.results := by
    refine ⟨(simulateList rng 0 (currentSentence s).phonemes).1, rfl,
      simulateList_forall2 rng _ 0, simulateList_length rng _ 0, rfl, ?_, rfl⟩
    exact simulateList_raw_ne_empty rng _ 0 hpne hpwf
  cases resp with
  | ok comparison raw phonemes => simp [AnalyzeResponse.isFailure] at hfail
  | httpError => exact hmain
  | transportError => exact hmain

theorem claim_fallback_analysis_witness :
    ∃ l, (processRecording (fun _ => 1/2) AnalyzeResponse.httpError initSession).results = some l ∧
      List.Forall₂ simulatedEntryOk l (currentSentence initSession).phonemes ∧
      l.length = (currentSentence initSession).phonemes.length ∧
      (processRecording (fun _ => 1/2) AnalyzeResponse.httpError initSession).rawPhonemes =
        String.intercalate " " (l.map fun r => jsOrStr r.actual r.expected) ∧
      (processRecording (fun _ => 1/2) AnalyzeResponse.httpError initSession).rawPhonemes ≠ "" ∧
      (processRecording (fun _ => 1/2) AnalyzeResponse.httpError initSession).recordingState =
        RecordingState.results :=
  claim_fallback_analysis initSession (fun _ => 1/2) AnalyzeResponse.httpError (by decide) rfl

/-- C2: after any completed analysis whose success responses honour
the documented interface, the stored comparison is exactly as long as
the current sentence's expected phonemes. -/
theorem claim_comparison_length (s : Session) (rng : ℕ → ℚ) (resp : AnalyzeResponse)
    (hgood : analyzeRespGood (currentSentence s).phonemes resp) :
    ∃ l, (processRecording rng resp s).results = some l ∧
      l.length = (currentSentence s).phonemes.length := by
  cases resp with
  | ok comparison raw phonemes => exact ⟨comparison, rfl, hgood⟩
  | httpError => exact ⟨_, rfl, simulateList_length rng _ 0⟩
  | transportError => exact ⟨_, rfl, simulateList_length rng _ 0⟩

theorem claim_comparison_length_witness :
    ∃ l, (processRecording (fun _ => 1/2)
        (AnalyzeResponse.ok
          ((currentSentence initSession).phonemes.map fun p =>
            { expected := p, actual := some p, correct := true })
          (some "raw") [])
        initSession).results = some l ∧
      l.length = (currentSentence initSession).phonemes.length :=
  claim_comparison_length initSession (fun _ => 1/2)
    (AnalyzeResponse.ok
      ((currentSentence initSession).phonemes.map fun p =>
        { expected := p, actual := some p, correct := true })
      (some "raw") [])
    (by simp [analyzeRespGood])

/-- C3: every reachable session is in one of the four lifecycle
states, and the comparison is present exactly in the results state. -/
theorem claim_lifecycle_invariant (s : Session) (hs : Reachable s) :
    (s.recordingState = RecordingState.idle ∨
     s.recordingState = RecordingState.recording ∨
     s.recordingState = RecordingState.processing ∨
     s.recordingState = RecordingState.results) ∧
    (s.results.isSome ↔ s.recordingState = RecordingState.results) := by
  refine ⟨?_, (inv_reachable hs).2.1⟩
  cases s.recordingState
  · exact Or.inl rfl
  · exact Or.inr (Or.inl rfl)
  · exact Or.inr (Or.inr (Or.inl rfl))
  · exact Or.inr (Or.inr (Or.inr rfl))

theorem claim_lifecycle_invariant_witness :
    (initSession.recordingState = RecordingState.idle ∨
     initSession.recordingState = RecordingState.recording ∨
     initSession.recordingState = RecordingState.processing ∨
     initSession.recordingState = RecordingState.results) ∧
    (initSession.results.isSome ↔ initSession.recordingState = RecordingState.results) :=
  claim_lifecycle_invariant initSession Reachable.init

/-- C5: in every reachable session no handle is revoked twice, the
held recorded-audio handle is unrevoked, every allocated handle is
revoked or still held, and the try-again and next steps from results
revoke the held handle exactly once while clearing it. -/
theorem claim_release_once (s : Session) (hs : Reachable s) :
    (∀ h, s.released.count h ≤ 1) ∧
    (∀ h, s.recordedAudioUrl = some h → s.released.count h = 0) ∧
    (∀ h, h < s.nextHandle → s.released.count h = 1 ∨ s.recordedAudioUrl = some h) ∧
    (∀ e t, (e = Event.tryAgain ∨ e = Event.next) → step s e = some t →
      t.recordedAudioUrl = none ∧
      ∀ h, s.recordedAudioUrl = some h → t.released.count h = s.released.count h + 1) := by
  obtain ⟨h1, h2, h3, h4, h5, h6, h7⟩ := inv_reachable hs
  refine ⟨h5, fun h hh => (h4 h hh).2, h6, ?_⟩
  intro e t he hstep
  obtain ⟨g5, g6, g7, g8⟩ :=
    released_after_revoke s.recordedAudioUrl s.nextHandle s.released h4 h6 h5 h7
  rcases he with he | he <;> subst he
  · by_cases hg : s.recordingState = RecordingState.results
    · simp only [step, hg, if_pos] at hstep
      injection hstep with hstep
      subst hstep
      exact ⟨rfl, fun h hh => g8 h hh⟩
    · simp only [step, hg, if_neg, if_false] at hstep
      cases hstep
  · by_cases hg : s.recordingState = RecordingState.results
    · simp only [step, hg, if_pos] at hstep
      injection hstep with hstep
      subst hstep
      exact ⟨rfl, fun h hh => g8 h hh⟩
    · simp only [step, hg, if_neg, if_false] at hstep
      cases hstep

theorem claim_release_once_witness :
    (∀ h, initSession.released.count h ≤ 1) ∧
    (∀ h, initSession.recordedAudioUrl = some h → initSession.released.count h = 0) ∧
    (∀ h, h < initSession.nextHandle →
      initSession.released.count h = 1 ∨ initSession.recordedAudioUrl = some h) ∧
    (∀ e t, (e = Event.tryAgain ∨ e = Event.next) → step initSession e = some t →
      t.recordedAudioUrl = none ∧
      ∀ h, initSession.recordedAudioUrl = some h →
        t.released.count h = initSession.released.count h + 1) :=
  claim_release_once initSession Reachable.init

/-- C7: for a tabled phoneme the heuristic returns one of the listed
alternates (for the voiceless TH these are t, s, f), and for a phoneme
outside the table it returns the input unchanged. -/
theorem claim_substitution_table (p : String) (r : ℚ) (h0 : 0 ≤ r) (h1 : r < 1) :
    (∀ subs, substitutions p = some subs → getRandomSubstitution r p ∈ subs) ∧
    (substitutions p = none → getRandomSubstitution r p = p) ∧
    substitutions "θ" = some ["t", "s", "f"] := by
  refine ⟨fun subs hs => getRandomSubstitution_mem r p subs h0 h1 hs, ?_, rfl⟩
  intro hnone
  unfold getRandomSubstitution
  rw [hnone]

theorem claim_substitution_table_witness :
    (∀ subs, substitutions "θ" = some subs → getRandomSubstitution (1/2) "θ" ∈ subs) ∧
    (substitutions "θ" = none → getRandomSubstitution (1/2) "θ" = "θ") ∧
    substitutions "θ" = some ["t", "s", "f"] :=
  claim_substitution_table "θ" (1/2) (by norm_num) (by norm_num)


/-- C8: on a failed speak request, with metadata present the fallback
synthesis is invoked with the first comma-separated token of the
example text (for the voiceless TH this is the word think), and with
no metadata nothing is synthesized and the playing marker clears. -/
theorem claim_speak_fallback (pb : PlaybackState) (p : String) :
    (∀ info, phonemeInfo p = some info →
      (playPhoneme false p pb).spokenUtterances =
        pb.spokenUtterances ++ [firstExampleWord info] ∧
      (playPhoneme false p pb).playingAudios = pb.playingAudios) ∧
    ((playPhoneme false "θ" pb).spokenUtterances = pb.spokenUtterances ++ ["think"]) ∧
    (phonemeInfo p = none →
      (playPhoneme false p pb).spokenUtterances = pb.spokenUtterances ∧
      (playPhoneme false p pb).playingPhoneme = none ∧
      (playPhoneme false p pb).playingAudios = pb.playingAudios) := by
  refine ⟨?_, ?_, ?_⟩
  · intro info hinfo
    simp only [playPhoneme, Bool.false_eq_true, if_false, hinfo]
    exact ⟨trivial, trivial⟩
  · have hword : firstExampleWord
        { description := "Voiceless TH", exampleText := "think, three, bath",
          tip := "Put tongue between teeth, blow air without vibrating throat" } =
        "think" := by decide
    have hinfo : phonemeInfo "θ" = some
        { description := "Voiceless TH", exampleText := "think, three, bath",
          tip := "Put tongue between teeth, blow air without vibrating throat" } := rfl
    simp only [playPhoneme, Bool.false_eq_true, if_false, hinfo, hword]
  · intro hnone
    simp only [playPhoneme, Bool.false_eq_true, if_false, hnone]
    exact ⟨trivial, trivial, trivial⟩

theorem claim_speak_fallback_witness :
    (playPhoneme false "θ" initPlayback).spokenUtterances =
      initPlayback.spokenUtterances ++ ["think"] :=
  (claim_speak_fallback initPlayback "θ").2.1

/-- C6 fails as stated: a successful playback followed by a failed one
leaves the first backend audio playing while the fallback synthesis
speaks, so two phoneme audios are audible at once. -/
theorem claim_single_playback_counterexample :
    activePlaybackCount (playPhoneme true "a" initPlayback) = 1 ∧
    activePlaybackCount (playPhoneme false "θ" (playPhoneme true "a" initPlayback)) = 2 := by
  exact ⟨by decide, by decide⟩

/-- C6 amended: only the success path stops the in-flight previous
backend audio (keeping at most one backend audio playing); the
fallback synthesis path stops nothing. -/
theorem claim_single_playback_amended (pb : PlaybackState) (p q : String)
    (hinv : backendAudioInv pb) :
    (playPhoneme true p pb).playingAudios = [pb.nextAudioId] ∧
    backendAudioInv (playPhoneme true p pb) ∧
    (playPhoneme false q pb).playingAudios = pb.playingAudios := by
  have hsucc : (playPhoneme true p pb).playingAudios = [pb.nextAudioId] := by
    cases href : pb.audioRef with
    | none =>
      have hempty : pb.playingAudios = [] := by
        cases hpa : pb.playingAudios with
        | nil => rfl
        | cons x xs =>
          have hx := hinv x (by rw [hpa]; exact List.mem_cons_self x xs)
          rw [href] at hx
          cases hx
      simp [playPhoneme, href, hempty]
    | some h0 =>
      have hall : ∀ a ∈ pb.playingAudios, a = h0 := by
        intro a ha
        have hx := hinv a ha
        rw [href] at hx
        injection hx with hx
        exact hx.symm
      simp [playPhoneme, href]
      exact hall
  refine ⟨hsucc, ?_, ?_⟩
  · intro h hmem
    rw [hsucc] at hmem
    have heq : h = pb.nextAudioId := List.mem_singleton.mp hmem
    subst heq
    have haudio : (playPhoneme true p pb).audioRef = some pb.nextAudioId := by
      simp [playPhoneme]
    exact haudio
  · cases hq : phonemeInfo q <;>
      simp [playPhoneme, hq]

theorem claim_single_playback_amended_witness :
    (playPhoneme true "a" initPlayback).playingAudios = [initPlayback.nextAudioId] ∧
    backendAudioInv (playPhoneme true "a" initPlayback) ∧
    (playPhoneme false "θ" initPlayback).playingAudios = initPlayback.playingAudios :=
  claim_single_playback_amended initPlayback "a" "θ" (by intro h hmem; cases hmem)

end AccentTrainer
